import Mathlib

/-!
# Verification of the OAI-PMH harvester (ckanext-oaipmh)

Shallow embedding of `src/ckanext/oaipmh/harvester.py` (class `OaipmhHarvester`).
The three pipeline stages (`gather_stage`, `fetch_stage`, `import_stage`) and the
extraction helpers are translated into pure Lean functions.  External
collaborators (the OAI endpoint reached through `oaipmh.client.Client`, the
catalog API reached through `get_action`, and the two name-sanitizers from
`ckan.lib.munge`) are modelled as explicit parameters or as small spec-modelled
functions, each marked as such in its doc comment.

Conventions:
* A Python `dict` (preserving insertion order, distinct keys) is an association
  list `List (String × Value)`.
* JSON values that occur in a serialized content map are either strings or
  lists of strings (`Value`).
* A raised-and-caught exception becomes an `Except`/`Option` failure; the
  per-stage error bookkeeping (`_save_gather_error`, `_save_object_error`)
  becomes explicit error counters in the stage results.
* Harvester instance attributes set by `_set_config` are modelled as
  `Option`-valued fields of `HarvState`; an outer `none` means the attribute
  was never assigned, so reading it raises `AttributeError`.
-/

namespace Oaipmh

/-- A JSON value stored in a content map: after the `json.dumps`/`json.loads`
round trip the values coming from `metadata.getMap()` are lists of strings,
and the injected `metadata_modified` value is a plain string. -/
inductive Value where
  | str (s : String)
  | list (l : List String)
deriving DecidableEq, Repr

/-- The `ContentMap`: a Python dict from field name to value, encoded as an
association list in insertion order with pairwise distinct keys. -/
abbrev ContentMap := List (String × Value)

/-- Python dict lookup `m[k]` (first, hence only, binding of `k`). -/
def lookupKey : ContentMap → String → Option Value
  | [], _ => none
  | (k', v) :: rest, k => if k' = k then some v else lookupKey rest k

/-- Python dict assignment `m[k] = v`: updates in place when the key
exists (keeping its position), otherwise appends the binding. -/
def dictSet : ContentMap → String → Value → ContentMap
  | [], k, v => [(k, v)]
  | (k', v') :: rest, k, v =>
      if k' = k then (k, v) :: rest else (k', v') :: dictSet rest k v

/-- Python `sep.join(l)` for a list of strings. -/
def joinSep (sep : String) : List String → String
  | [] => ""
  | [x] => x
  | x :: y :: xs => x ++ sep ++ joinSep sep (y :: xs)

/-- Python `sep.join(value)`: joining a list joins its elements; joining a
string iterates over its characters (each a one-character string). -/
def pyJoin (sep : String) : Value → String
  | .list l => joinSep sep l
  | .str s => joinSep sep (s.toList.map fun c => String.mk [c])

/-- Accumulator-passing splitter behind `splitSemis`. -/
def splitCharAux (c : Char) : List Char → List Char → List (List Char)
  | [], acc => [acc.reverse]
  | x :: xs, acc =>
      if x = c then acc.reverse :: splitCharAux c xs []
      else splitCharAux c xs (x :: acc)

/-- Python `s.split(';')`: splits on every separator; `"".split(';') = [""]`. -/
def splitSemis (s : String) : List String :=
  (splitCharAux ';' s.toList []).map String.mk

/-- Python slicing `s[:n]`. -/
def strTake (s : String) (n : Nat) : String :=
  String.mk (s.toList.take n)

/-- Python `s.endswith(suffix)`, via the underlying character lists. -/
def strEndsWith (s suffix : String) : Bool :=
  decide (s.toList.reverse.take suffix.toList.length = suffix.toList.reverse)

/-- Modelled from the spec: `ckan.lib.munge.munge_tag`, an external CKAN
dependency (not in `src/`), described by the spec as a case/space-normalizing
name sanitizer.  Lower-cases, keeps alphanumerics, hyphens and spaces, and
turns spaces into hyphens. -/
def munge_tag (s : String) : String :=
  String.mk (((s.toList.map Char.toLower).filter
    fun c => c.isAlphanum || c = '-' || c = ' ').map
      fun c => if c = ' ' then '-' else c)

/-- Modelled from the spec: `ckan.lib.munge.munge_title_to_name`, an external
CKAN dependency (not in `src/`), described by the spec as a deterministic
name-sanitizing transform (lowercase, ASCII-safe, URL-safe). -/
def munge_title_to_name (s : String) : String :=
  String.mk (((s.toList.map Char.toLower).filter
    fun c => c.isAlphanum || c = '-' || c = '_' || c = ' ').map
      fun c => if c = ' ' then '-' else c)

/-- Tests that `[a, b]` is two decimal digits. -/
def twoDigits : List Char → Bool
  | [a, b] => a.isDigit && b.isDigit
  | _ => false

/-- Shape `YYYY-MM-DD`. -/
def dateShape : List Char → Bool
  | [y1, y2, y3, y4, '-', m1, m2, '-', d1, d2] =>
      y1.isDigit && y2.isDigit && y3.isDigit && y4.isDigit &&
      m1.isDigit && m2.isDigit && d1.isDigit && d2.isDigit
  | _ => false

/-- Shape `HH:MM:SS`. -/
def timeShape : List Char → Bool
  | [h1, h2, ':', m1, m2, ':', s1, s2] =>
      h1.isDigit && h2.isDigit && m1.isDigit && m2.isDigit &&
      s1.isDigit && s2.isDigit
  | _ => false

/-- Shape of an optional trailing UTC-offset designator: empty, `Z`,
or `±HH:MM`. -/
def tzShape : List Char → Bool
  | [] => true
  | ['Z'] => true
  | ['+', h1, h2, ':', m1, m2] => twoDigits [h1, h2] && twoDigits [m1, m2]
  | ['-', h1, h2, ':', m1, m2] => twoDigits [h1, h2] && twoDigits [m1, m2]
  | _ => false

/-- Modelled from the spec: the composite
`dateutil.parser.parse(value).replace(tzinfo=None).isoformat()` used in
`_extract_tags_and_extras` (the parser is the external `python-dateutil`
library, not in `src/`).  Accepts ISO-8601 dates `YYYY-MM-DD` (naive ISO form
`YYYY-MM-DDT00:00:00`) and date-times `YYYY-MM-DDTHH:MM:SS` with an optional
`Z`/`±HH:MM` offset, which the naive ISO form drops; returns `none` when the
value does not parse (`ValueError`). -/
def parseDateNaiveIso (s : String) : Option String :=
  let cs := s.toList
  if dateShape cs then some (s ++ "T00:00:00")
  else
    match cs with
    | y1 :: y2 :: y3 :: y4 :: '-' :: m1 :: m2 :: '-' :: d1 :: d2 :: 'T' :: rest =>
        if dateShape [y1, y2, y3, y4, '-', m1, m2, '-', d1, d2] &&
           timeShape (rest.take 8) && tzShape (rest.drop 8) then
          some (String.mk ([y1, y2, y3, y4, '-', m1, m2, '-', d1, d2, 'T'] ++ rest.take 8))
        else none
    | _ => none

/-- A well-formed (JSON-object) source configuration, with the optional keys
read by `_set_config`. The JSON key `metadata_prefix` is modelled by the field
`metadata_format` (the attribute the code stores it in is `self.md_format`). -/
structure ConfigJson where
  username : Option String := none
  password : Option String := none
  set : Option String := none
  filter : Option String := none
  metadata_format : Option String := none
  force_http_get : Option Bool := none
deriving DecidableEq, Repr

/-- The harvester instance attributes assigned by `_set_config`.  Each field is
`Option`-wrapped: `none` means the attribute was never assigned, so reading it
raises `AttributeError`.  (`set_spec`, `set_filter` and `credentials` can be
assigned the Python value `None`, hence the nested `Option`.) -/
structure HarvState where
  credentials : Option (Option (String × String)) := none
  user : Option String := none
  set_spec : Option (Option String) := none
  set_filter : Option (Option String) := none
  md_format : Option String := none
  force_http_get : Option Bool := none
deriving DecidableEq, Repr

/-- A fresh harvester instance: no configuration attribute assigned yet. -/
def freshHarvState : HarvState := {}

/-- Source translation of `_set_config(source_config)`.  The argument is the result of
`json.loads`: `none` models a malformed configuration string
(`ValueError`, caught by `except ValueError: pass`, which leaves every
attribute untouched).  For a JSON object, `username`/`password` are read
under `except (IndexError, KeyError)` (absent → `credentials = None`),
`user` is set to `"harvest"`, and the remaining keys are read with
`dict.get` defaults: `set`/`filter` default to `None`, `metadata_prefix`
to `"oai_dc"`, `force_http_get` to `False`. -/
def _set_config (st : HarvState) (source_config : Option ConfigJson) : HarvState :=
  match source_config with
  | none => st
  | some cfg =>
      { credentials :=
          some (match cfg.username, cfg.password with
                | some u, some p => some (u, p)
                | _, _ => none)
        user := some "harvest"
        set_spec := some cfg.set
        set_filter := some cfg.filter
        md_format := some (cfg.metadata_format.getD "oai_dc")
        force_http_get := some (cfg.force_http_get.getD false) }

/-- An OAI-PMH record header, as seen through `pyoai`: `identifier()`,
`setSpec()`, and `datestamp().isoformat()` (the latter `none` when the
`header.datestamp().isoformat()` call raises). -/
structure Header where
  identifier : String
  setSpec : List String
  datestampIso : Option String := none
deriving DecidableEq, Repr

/-- One event of the lazily-produced identifier listing
(`client.listIdentifiers` behind `_identifier_generator`): either the next
header, or an exception raised mid-iteration. -/
inductive StreamItem where
  | header (h : Header)
  | failure (msg : String)
deriving DecidableEq, Repr

/-- The OAI endpoint as `gather_stage` observes it: whether `client.identify()`
succeeds, and the identifier stream (iteration stops at the first
`StreamItem.failure`). -/
structure GatherEndpoint where
  identifyOk : Bool
  headers : List StreamItem
deriving DecidableEq, Repr

/-- A `HarvestObject` as created by `gather_stage`: the database-assigned `id`
is modelled by the creation sequence number, and `guid` is the header
identifier. -/
structure HObj where
  id : Nat
  guid : String
deriving DecidableEq, Repr

/-- Result of `gather_stage`: `returnedIds` is `some ids` for the normal
return and `none` for `return None` after a caught exception;
`createdObjects` are the `HarvestObject`s saved to the database (they survive
a later failure); `gatherErrors` counts `_save_gather_error` calls and
`objectErrors` counts `_save_object_error` calls (gather never makes any). -/
structure GatherResult where
  returnedIds : Option (List Nat)
  createdObjects : List HObj
  gatherErrors : Nat
  objectErrors : Nat
deriving DecidableEq, Repr

/-- The truthiness-guarded skip test
`if self.set_filter and self.set_filter not in header.setSpec()`: a missing or
empty (falsy) filter never skips. -/
def shouldSkip (set_filter : Option String) (h : Header) : Bool :=
  match set_filter with
  | none => false
  | some f => f ≠ "" && !(h.setSpec.contains f)

/-- The `for header in self._identifier_generator(client)` loop of
`gather_stage`.  `nextId` is the next database id.  Reading `self.set_filter`
raises `AttributeError` when the attribute was never assigned, which the outer
`except Exception` turns into a failed stage; a `StreamItem.failure` raised by
the generator does the same.  Returns the objects created (in creation order)
and, on success, the collected id list. -/
def gatherLoop (st : HarvState) : Nat → List StreamItem → List HObj × Option (List Nat)
  | _, [] => ([], some [])
  | _, .failure _ :: _ => ([], none)
  | nextId, .header h :: rest =>
      match st.set_filter with
      | none => ([], none)
      | some f =>
          if shouldSkip f h then gatherLoop st nextId rest
          else
            let obj : HObj := { id := nextId, guid := h.identifier }
            let (objs, ids) := gatherLoop st (nextId + 1) rest
            (obj :: objs, ids.map fun l => obj.id :: l)

/-- Source translation of `gather_stage(harvest_job)`.  Calls `_set_config` on the source
configuration, builds the client (reading `self.credentials` and
`self.force_http_get`; `AttributeError` when either was never assigned),
checks `client.identify()`, then runs the identifier loop.  Any exception is
caught, one `HarvestGatherError` is saved, and `None` is returned; objects
already saved are not rolled back. -/
def gather_stage (st0 : HarvState) (source_config : Option ConfigJson)
    (ep : GatherEndpoint) : GatherResult :=
  let st := _set_config st0 source_config
  match st.credentials, st.force_http_get with
  | some _, some _ =>
      if ep.identifyOk then
        let (objs, ids) := gatherLoop st 0 ep.headers
        match ids with
        | some l =>
            { returnedIds := some l, createdObjects := objs,
              gatherErrors := 0, objectErrors := 0 }
        | none =>
            { returnedIds := none, createdObjects := objs,
              gatherErrors := 1, objectErrors := 0 }
      else
        { returnedIds := none, createdObjects := [],
          gatherErrors := 1, objectErrors := 0 }
  | _, _ =>
      { returnedIds := none, createdObjects := [],
        gatherErrors := 1, objectErrors := 0 }

instance instDecEqExcept {ε α : Type} [DecidableEq ε] [DecidableEq α] :
    DecidableEq (Except ε α) := fun x y =>
  match x, y with
  | .ok a, .ok b => if h : a = b then isTrue (by simp [h]) else isFalse (by simp [h])
  | .ok _, .error _ => isFalse (by simp)
  | .error _, .ok _ => isFalse (by simp)
  | .error a, .error b => if h : a = b then isTrue (by simp [h]) else isFalse (by simp [h])

/-- One record as returned by `client.getRecord`: the tuple
`(header, metadata, about)` with `metadata.getMap()` already taken. -/
structure OaiRecord where
  header : Header
  metadataMap : ContentMap
deriving DecidableEq, Repr

/-- Result of `fetch_stage`: the return value, the number of
`_save_object_error` calls, and the content dict persisted on the
`HarvestObject` this run (`none` when nothing was written; the byte string
actually stored is `json_dumps` of it). -/
structure FetchOutcome where
  success : Bool
  objectErrors : Nat
  persisted : Option ContentMap
deriving DecidableEq, Repr

/-- JSON string literal printer (escaping not modelled: harvested values are
taken to be escape-free). -/
def dumpString (s : String) : String := "\"" ++ s ++ "\""

/-- Serialization `json.dumps` of one value. -/
def dumpValue : Value → String
  | .str s => dumpString s
  | .list l => "[" ++ joinSep ", " (l.map dumpString) ++ "]"

/-- Serialization `json.dumps` of a content dict, in insertion order. -/
def json_dumps (m : ContentMap) : String :=
  "\x7b" ++ joinSep ", " (m.map fun kv => dumpString kv.1 ++ ": " ++ dumpValue kv.2) ++ "\x7d"

/-- Source translation of `fetch_stage(harvest_object)`.  Resolves the configuration, builds the
client (reading `self.credentials` / `self.force_http_get` / `self.md_format`;
when one was never assigned the raised `AttributeError` is caught like any
other exception and one object error is saved), calls
`client.getRecord(guid, metadataPrefix)` (failure: one object error, return
`False`), then builds the content dict: `metadata.getMap()`, `set_spec` from
the header, and `metadata_modified` only when `header.datestamp().isoformat()`
succeeded.  `metadata.getMap()` and `json.dumps` are modelled as total, so the
`"Dumping the metadata failed!"` branch is unreachable in the model.
On success the serialized dict is persisted and `True` returned. -/
def fetch_stage (st0 : HarvState) (source_config : Option ConfigJson)
    (guid : String) (getRecord : String → String → Except String OaiRecord) :
    FetchOutcome :=
  let st := _set_config st0 source_config
  match st.credentials, st.force_http_get, st.md_format with
  | some _, some _, some mdf =>
      match getRecord guid mdf with
      | .error _ => { success := false, objectErrors := 1, persisted := none }
      | .ok record =>
          let d0 := dictSet record.metadataMap "set_spec" (.list record.header.setSpec)
          let d1 :=
            match record.header.datestampIso with
            | some m => dictSet d0 "metadata_modified" (.str m)
            | none => d0
          { success := true, objectErrors := 0, persisted := some d1 }
  | _, _, _ => { success := false, objectErrors := 1, persisted := none }

/-- A `HarvestObject` as `import_stage` receives it: the `guid` and the
deserialized content (`none` models both a null and an empty content blob,
either of which fails the `if not harvest_object.content` precondition). -/
structure HarvestObjectRec where
  guid : String
  content : Option ContentMap
deriving DecidableEq, Repr

/-- Direct dict indexing `content[k]`; `KeyError` when the key is absent. -/
def getKey (content : ContentMap) (k : String) : Except String Value :=
  match lookupKey content k with
  | some v => .ok v
  | none => .error ("KeyError: " ++ k)

/-- Source translation of `', '.join(content['creator'])`; `KeyError` when `creator` is absent. -/
def _extract_author (content : ContentMap) : Except String String :=
  (getKey content "creator").map (pyJoin ", ")

/-- Source translation of `', '.join(content['rights'])`; `KeyError` when `rights` is absent. -/
def _extract_license_id (content : ContentMap) : Except String String :=
  (getKey content "rights").map (pyJoin ", ")

/-- Source translation of `', '.join(content['date'])`; `KeyError` when `date` is absent. -/
def _extract_created_date (content : ContentMap) : Except String String :=
  (getKey content "date").map (pyJoin ", ")

/-- Source translation of `', '.join(content['relation'])`; `KeyError` when `relation` is absent. -/
def _extract_relation (content : ContentMap) : Except String String :=
  (getKey content "relation").map (pyJoin ", ")

/-- Source translation of `', '.join(content['identifier'])`; `KeyError` when `identifier` is
absent. -/
def _extract_identifier (content : ContentMap) : Except String String :=
  (getKey content "identifier").map (pyJoin ", ")

/-- The static field-mapping table `_get_mapping`, in iteration order
(ckan field, oai field). -/
def _get_mapping : List (String × String) :=
  [("title", "title"), ("notes", "description"), ("maintainer", "publisher"),
   ("maintainer_email", "maintainer_email"), ("url", "relation")]

/-- Python `value[0]` under `except (IndexError, KeyError)`: first element of
a list (`IndexError` on an empty one), first character of a string
(`IndexError` on an empty one). -/
def indexZero : Value → Option String
  | .list [] => none
  | .list (x :: _) => some x
  | .str s =>
      match s.toList with
      | [] => none
      | c :: _ => some (String.mk [c])

/-- The mapping loop of `import_stage`
(`package_dict[ckan_field] = content[oai_field][0]`, skipping on
`IndexError`/`KeyError`): returns the assignments performed, in loop order. -/
def mappingLoop (content : ContentMap) : List (String × String) → List (String × String)
  | [] => []
  | (ckanField, oaiField) :: rest =>
      match (lookupKey content oaiField).bind indexZero with
      | some v => (ckanField, v) :: mappingLoop content rest
      | none => mappingLoop content rest

/-- Lookup in the list of mapping-loop assignments. -/
def assocLookup : List (String × String) → String → Option String
  | [], _ => none
  | (k', v) :: rest, k => if k' = k then some v else assocLookup rest k

/-- Source translation of `list(self._get_mapping().values())`. -/
def mappingSourceKeys : List String := _get_mapping.map Prod.snd

/-- Tag values of a `type`/`subject` entry: a list is taken as is
(`tags.extend(value)`), a scalar is split on `;`
(`tags.extend(value.split(';'))`). -/
def tagsOf : Value → List String
  | .list l => l
  | .str s => splitSemis s

/-- The two truthiness rewrites of the extras path
(`if value and type(value) is list: value = value[0]` then
`if not value: value = None`): the resulting extras value before date
normalization. -/
def extrasValue : Value → Option String
  | .list [] => none
  | .list (x :: _) => if x = "" then none else some x
  | .str s => if s = "" then none else some s

/-- The extras entry produced for one non-mapping, non-`type`/`subject` key:
`none` when the `continue` of a failed date parse drops the key. -/
def extrasEntry (key : String) (v : Value) : Option (String × Option String) :=
  match extrasValue v with
  | none => some (key, none)
  | some s =>
      if strEndsWith key "date" then
        match parseDateNaiveIso s with
        | some iso => some (key, some iso)
        | none => none
      else some (key, some s)

/-- The item loop of `_extract_tags_and_extras`, producing raw tags and extras
in iteration order. -/
def tagsExtrasLoop : ContentMap → List String × List (String × Option String)
  | [] => ([], [])
  | (key, value) :: rest =>
      let r := tagsExtrasLoop rest
      if mappingSourceKeys.contains key then r
      else if key = "type" ∨ key = "subject" then (tagsOf value ++ r.1, r.2)
      else
        match extrasEntry key value with
        | some e => (r.1, e :: r.2)
        | none => r

/-- Source translation of `_extract_tags_and_extras(content)`.  The returned tag dicts
`{'name': munge_tag(tag[:100])}` are modelled by the munged names. -/
def _extract_tags_and_extras (content : ContentMap) :
    List String × List (String × Option String) :=
  let (tags, extras) := tagsExtrasLoop content
  (tags.map fun t => munge_tag (strTake t 100), extras)

/-- The package dict assembled by `import_stage`.  Fields follow the source's
assignments; `resources` holds (name, url) pairs, `modified` keeps the raw
`content['metadata_modified']` value. -/
structure PackageDict where
  id : String
  name : String
  title : Option String
  notes : Option String
  maintainer : Option String
  maintainer_email : Option String
  url : Option String
  author : String
  owner_org : Option String
  license_id : String
  license : String
  resources : List (String × String)
  tags : List String
  extras : List (String × Option String)
  modified : Value
  issued : String
  source_identifier : String
  identifier : String
  references : String
  groups : List String
deriving DecidableEq, Repr

/-- The package-building body of `import_stage`, in source order: the mapping
loop, then the extraction helpers, each of which raises `KeyError` on a
missing key; `ownerOrg` is the outcome of the external
`package_show(id=source.id).get('owner_org')` call.  The first raised
exception aborts the build (`except Exception` in the source). -/
def import_build (guid : String) (content : ContentMap)
    (ownerOrg : Except String (Option String)) : Except String PackageDict :=
  let idName := munge_title_to_name guid
  let mapped := mappingLoop content _get_mapping
  match _extract_author content with
  | .error e => .error e
  | .ok author =>
  match ownerOrg with
  | .error e => .error e
  | .ok org =>
  match _extract_license_id content with
  | .error e => .error e
  | .ok lic =>
  match _extract_relation content with
  | .error e => .error e
  | .ok resUrl =>
  let te := _extract_tags_and_extras content
  match getKey content "metadata_modified" with
  | .error e => .error e
  | .ok modifiedV =>
  match _extract_created_date content with
  | .error e => .error e
  | .ok issued =>
  match _extract_identifier content with
  | .error e => .error e
  | .ok srcIdent =>
  match _extract_relation content with
  | .error e => .error e
  | .ok identVal =>
  match _extract_relation content with
  | .error e => .error e
  | .ok refs =>
  .ok { id := idName, name := idName,
        title := assocLookup mapped "title",
        notes := assocLookup mapped "notes",
        maintainer := assocLookup mapped "maintainer",
        maintainer_email := assocLookup mapped "maintainer_email",
        url := assocLookup mapped "url",
        author := author, owner_org := org, license_id := lic, license := lic,
        resources := [("Figshare", resUrl)], tags := te.1, extras := te.2,
        modified := modifiedV, issued := issued,
        source_identifier := srcIdent, identifier := identVal,
        references := refs, groups := [] }

/-- Result of `import_stage`: the return value, the number of
`_save_object_error` calls, and the package dict submitted to
`_create_or_update_package` when the stage succeeded. -/
structure ImportOutcome where
  success : Bool
  objectErrors : Nat
  submitted : Option PackageDict
deriving DecidableEq, Repr

/-- Source translation of `import_stage(harvest_object)`.  The two preconditions
(`not harvest_object`, `not harvest_object.content`) each save one object
error and return `False`; then the package dict is built (any exception:
one object error, return `False`); finally `_create_or_update_package`
and `Session.commit()` run (`createOk` is the outcome of that external
call; its failure is also caught as one object error).  Configuration
resolution is modelled at the gather/fetch level and not repeated here. -/
def import_stage (obj : Option HarvestObjectRec)
    (ownerOrg : Except String (Option String)) (createOk : Bool) : ImportOutcome :=
  match obj with
  | none => { success := false, objectErrors := 1, submitted := none }
  | some o =>
      match o.content with
      | none => { success := false, objectErrors := 1, submitted := none }
      | some content =>
          match import_build o.guid content ownerOrg with
          | .error _ => { success := false, objectErrors := 1, submitted := none }
          | .ok pd =>
              if createOk then
                { success := true, objectErrors := 0, submitted := some pd }
              else
                { success := false, objectErrors := 1, submitted := none }

/-- Importing every object of a job: the scheduler invokes `import_stage`
once per object, independently. -/
def import_all (objs : List (Option HarvestObjectRec))
    (ownerOrg : Except String (Option String)) (createOk : Bool) :
    List ImportOutcome :=
  objs.map fun o => import_stage o ownerOrg createOk

/-- Content map of the spec's end-to-end scenario: one record with
`creator=["A","B"]`, `rights=["CC-BY"]`, `relation=["http://x/1"]`,
`identifier=["http://x/1"]`, `date=["2021-05-01"]`, `title=["T"]`,
`description=["D"]`, plus the fetch-derived `metadata_modified`. -/
def sampleContent : ContentMap :=
  [("creator", .list ["A", "B"]), ("rights", .list ["CC-BY"]),
   ("relation", .list ["http://x/1"]), ("identifier", .list ["http://x/1"]),
   ("date", .list ["2021-05-01"]), ("title", .list ["T"]),
   ("description", .list ["D"]),
   ("metadata_modified", .str "2021-06-01T00:00:00")]

/-! ## Helper lemmas -/

/-- On an error-free identifier stream, the loop succeeds: it returns exactly
the ids of the created objects, and the created objects are the headers that
survive the set filter, in listing order, with `guid` the header identifier. -/
theorem gatherLoop_map_header (st : HarvState) (f : Option String)
    (hf : st.set_filter = some f) :
    ∀ (hs : List Header) (n : Nat),
      (gatherLoop st n (hs.map .header)).2 =
        some ((gatherLoop st n (hs.map .header)).1.map HObj.id) ∧
      (gatherLoop st n (hs.map .header)).1.map HObj.guid =
        ((hs.filter fun h => !shouldSkip f h).map Header.identifier)
  | [], n => by simp [gatherLoop]
  | h :: hs, n => by
      have ih := gatherLoop_map_header st f hf hs
      by_cases hsk : shouldSkip f h
      · simpa [gatherLoop, hf, hsk] using ih n
      · obtain ⟨ih1, ih2⟩ := ih (n + 1)
        simp [gatherLoop, hf, hsk, ih1, ih2]

/-- A `StreamItem.failure` in the stream makes the loop fail, preserving the
objects created from the headers before it. -/
theorem gatherLoop_failure (st : HarvState) (m : String) (rest : List StreamItem) :
    ∀ (hs : List Header) (n : Nat),
      gatherLoop st n (hs.map .header ++ .failure m :: rest) =
        ((gatherLoop st n (hs.map .header)).1, none)
  | [], n => by simp [gatherLoop]
  | h :: hs, n => by
      cases hsf : st.set_filter with
      | none => simp [gatherLoop, hsf]
      | some f =>
          by_cases hsk : shouldSkip f h
          · simpa [gatherLoop, hsf, hsk] using gatherLoop_failure st m rest hs n
          · simp [gatherLoop, hsf, hsk, gatherLoop_failure st m rest hs (n + 1)]

/-- Dict assignment under a different key does not change a lookup. -/
theorem lookupKey_dictSet_ne (m : ContentMap) (k : String) (v : Value)
    (k' : String) (hne : k' ≠ k) :
    lookupKey (dictSet m k v) k' = lookupKey m k' := by
  induction m with
  | nil => simp [dictSet, lookupKey, Ne.symm hne]
  | cons kv rest ih =>
      obtain ⟨a, b⟩ := kv
      by_cases ha : a = k
      · subst ha
        simp [dictSet, lookupKey, Ne.symm hne]
      · simp [dictSet, lookupKey, ha, ih]

/-- A successful `', '.join(content[k])`-style extraction means the key was
present. -/
theorem getKey_map_ok {content : ContentMap} {k : String} {f : Value → String}
    {s : String} (h : (getKey content k).map f = .ok s) :
    (lookupKey content k).isSome := by
  cases hl : lookupKey content k <;> simp [getKey, hl, Except.map] at h ⊢

/-- A successfully built package dict certifies that every directly indexed
key — `creator`, `rights`, `relation`, `metadata_modified`, `date`,
`identifier` — was present in the content map. -/
theorem import_build_ok_keys {g : String} {content : ContentMap}
    {oo : Except String (Option String)} {pd : PackageDict}
    (h : import_build g content oo = .ok pd) :
    (lookupKey content "creator").isSome ∧ (lookupKey content "rights").isSome ∧
    (lookupKey content "relation").isSome ∧
    (lookupKey content "metadata_modified").isSome ∧
    (lookupKey content "date").isSome ∧ (lookupKey content "identifier").isSome := by
  rw [import_build] at h
  cases h1 : _extract_author content with
  | error e => simp [h1] at h
  | ok author =>
  simp only [h1] at h
  cases oo with
  | error e => simp at h
  | ok org =>
  simp only at h
  cases h2 : _extract_license_id content with
  | error e => simp [h2] at h
  | ok lic =>
  simp only [h2] at h
  cases h3 : _extract_relation content with
  | error e => simp [h3] at h
  | ok resUrl =>
  simp only [h3] at h
  cases h4 : getKey content "metadata_modified" with
  | error e => simp [h4] at h
  | ok modifiedV =>
  simp only [h4] at h
  cases h5 : _extract_created_date content with
  | error e => simp [h5] at h
  | ok issued =>
  simp only [h5] at h
  cases h6 : _extract_identifier content with
  | error e => simp [h6] at h
  | ok srcIdent =>
  simp only [h6] at h
  refine ⟨getKey_map_ok h1, getKey_map_ok h2, getKey_map_ok h3, ?_,
    getKey_map_ok h5, getKey_map_ok h6⟩
  cases hl : lookupKey content "metadata_modified" <;> simp [getKey, hl] at h4 ⊢

/-- The mapping loop assigns no field whose name is absent from the table. -/
theorem assocLookup_mappingLoop_not_mem (content : ContentMap) :
    ∀ (pairs : List (String × String)) (tf : String),
      tf ∉ pairs.map Prod.fst → assocLookup (mappingLoop content pairs) tf = none
  | [], tf, _ => rfl
  | (a, b) :: rest, tf, h => by
      simp only [List.map_cons, List.mem_cons, not_or] at h
      cases hb : (lookupKey content b).bind indexZero with
      | none =>
          simp only [mappingLoop, hb]
          exact assocLookup_mappingLoop_not_mem content rest tf h.2
      | some v =>
          simp only [mappingLoop, hb, assocLookup, if_neg (Ne.symm h.1)]
          exact assocLookup_mappingLoop_not_mem content rest tf h.2

/-- For a table with pairwise distinct target fields, the mapping loop's
assignment of a target field is exactly `content[source][0]`, skipped on a
missing key or empty value. -/
theorem mappingLoop_lookup (content : ContentMap) :
    ∀ (pairs : List (String × String)), (pairs.map Prod.fst).Nodup →
      ∀ tf sf, (tf, sf) ∈ pairs →
        assocLookup (mappingLoop content pairs) tf = (lookupKey content sf).bind indexZero
  | [], _, tf, sf, hmem => absurd hmem (List.not_mem_nil _)
  | (a, b) :: rest, hnodup, tf, sf, hmem => by
      simp only [List.map_cons, List.nodup_cons] at hnodup
      rcases List.mem_cons.mp hmem with heq | hmem'
      · obtain ⟨rfl, rfl⟩ := Prod.mk.injEq .. ▸ heq
        cases hb : (lookupKey content sf).bind indexZero with
        | some v => simp [mappingLoop, hb, assocLookup]
        | none =>
            simp only [mappingLoop, hb]
            exact assocLookup_mappingLoop_not_mem content rest tf hnodup.1
      · have htf : tf ∈ rest.map Prod.fst := List.mem_map_of_mem Prod.fst hmem'
        have hane : a ≠ tf := fun he => hnodup.1 (he ▸ htf)
        cases hb : (lookupKey content b).bind indexZero with
        | none =>
            simp only [mappingLoop, hb]
            exact mappingLoop_lookup content rest hnodup.2 tf sf hmem'
        | some v =>
            simp only [mappingLoop, hb, assocLookup, if_neg hane]
            exact mappingLoop_lookup content rest hnodup.2 tf sf hmem'

/-- Every assignment made by the mapping loop targets a field of the table. -/
theorem mappingLoop_keys (content : ContentMap) :
    ∀ (pairs : List (String × String)) (p : String × String),
      p ∈ mappingLoop content pairs → p.1 ∈ pairs.map Prod.fst
  | [], p, hmem => absurd hmem (List.not_mem_nil _)
  | (a, b) :: rest, p, hmem => by
      simp only [List.map_cons, List.mem_cons]
      cases hb : (lookupKey content b).bind indexZero with
      | none =>
          simp only [mappingLoop, hb] at hmem
          exact Or.inr (mappingLoop_keys content rest p hmem)
      | some v =>
          simp only [mappingLoop, hb, List.mem_cons] at hmem
          rcases hmem with rfl | hmem'
          · exact Or.inl rfl
          · exact Or.inr (mappingLoop_keys content rest p hmem')

/-- Keys of the mapping table never equal `type`/`subject`. -/
theorem contains_of_type_subject (k : String) (h : k = "type" ∨ k = "subject") :
    k ∉ mappingSourceKeys := by
  rcases h with rfl | rfl <;> decide

/-- The item loop of `_extract_tags_and_extras`, described by one filter per
output: tags come from the `type`/`subject` items, extras from the remaining
items that are not mapping source keys, both in iteration order. -/
theorem tagsExtrasLoop_spec (content : ContentMap) :
    (tagsExtrasLoop content).1 =
      ((content.filter fun kv =>
          !mappingSourceKeys.contains kv.1 &&
            decide (kv.1 = "type" ∨ kv.1 = "subject")).flatMap
        fun kv => tagsOf kv.2) ∧
    (tagsExtrasLoop content).2 =
      ((content.filter fun kv =>
          !mappingSourceKeys.contains kv.1 &&
            !decide (kv.1 = "type" ∨ kv.1 = "subject")).filterMap
        fun kv => extrasEntry kv.1 kv.2) := by
  induction content with
  | nil => exact ⟨rfl, rfl⟩
  | cons kv rest ih =>
      obtain ⟨k, v⟩ := kv
      obtain ⟨ih1, ih2⟩ := ih
      by_cases hc : k ∈ mappingSourceKeys
      · simp [tagsExtrasLoop, List.filter_cons, hc, ih1, ih2]
      · by_cases hts : k = "type" ∨ k = "subject"
        · rcases hts with rfl | rfl <;>
            simp [tagsExtrasLoop, List.filter_cons, hc, ih1, ih2]
        · obtain ⟨h1, h2⟩ := not_or.mp hts
          cases he : extrasEntry k v with
          | some e =>
              simp [tagsExtrasLoop, List.filter_cons, hc, h1, h2, he, ih1, ih2]
          | none =>
              simp [tagsExtrasLoop, List.filter_cons, hc, h1, h2, he, ih1, ih2]

/-- In the tags filter, the mapping-keys conjunct is redundant:
`type`/`subject` are never mapping source keys. -/
theorem tagsFilter_simplify (content : ContentMap) :
    (content.filter fun kv =>
        !mappingSourceKeys.contains kv.1 && decide (kv.1 = "type" ∨ kv.1 = "subject")) =
      content.filter fun kv => decide (kv.1 = "type" ∨ kv.1 = "subject") := by
  refine List.filter_congr fun kv _ => ?_
  by_cases hts : kv.1 = "type" ∨ kv.1 = "subject"
  · simp [hts, contains_of_type_subject kv.1 hts]
  · simp [hts]

/-- The extras entry produced for a key keeps that key. -/
theorem extrasEntry_fst {k : String} {v : Value} {e : String × Option String}
    (h : extrasEntry k v = some e) : e.1 = k := by
  rw [extrasEntry] at h
  split at h
  · cases h
    rfl
  · split at h
    · split at h
      · cases h
        rfl
      · cases h
    · cases h
      rfl

/-- In a dict (pairwise distinct keys), a key determines its value. -/
theorem keys_nodup_unique {α β : Type} :
    ∀ {l : List (α × β)}, (l.map Prod.fst).Nodup →
      ∀ {k : α} {v v' : β}, (k, v) ∈ l → (k, v') ∈ l → v = v'
  | [], _, _, _, _, hmem, _ => absurd hmem (List.not_mem_nil _)
  | (a, b) :: rest, hnodup, k, v, v', hmem, hmem' => by
      simp only [List.map_cons, List.nodup_cons] at hnodup
      rcases List.mem_cons.mp hmem with heq | hm
      · obtain ⟨rfl, rfl⟩ := Prod.mk.injEq .. ▸ heq
        rcases List.mem_cons.mp hmem' with heq' | hm'
        · exact (Prod.mk.injEq .. ▸ heq').2.symm
        · exact absurd (List.mem_map_of_mem Prod.fst hm') hnodup.1
      · rcases List.mem_cons.mp hmem' with heq' | hm'
        · obtain ⟨rfl, rfl⟩ := Prod.mk.injEq .. ▸ heq'
          exact absurd (List.mem_map_of_mem Prod.fst hm) hnodup.1
        · exact keys_nodup_unique hnodup.2 hm hm'

/-- A key ending in `date` is neither a mapping source key nor
`type`/`subject`. -/
theorem endsDate_not_special (k : String) (hk : strEndsWith k "date" = true) :
    k ∉ mappingSourceKeys ∧ ¬(k = "type" ∨ k = "subject") := by
  constructor
  · intro hmem
    simp only [mappingSourceKeys, _get_mapping, List.map_cons, List.map_nil,
      List.mem_cons, List.not_mem_nil, or_false] at hmem
    rcases hmem with rfl | rfl | rfl | rfl | rfl <;> simp [strEndsWith] at hk
  · rintro (rfl | rfl) <;> simp [strEndsWith] at hk

/-! ## Claim theorems -/

/-- C1: On an error-free identifier listing under a well-formed configuration,
`gather_stage` skips exactly the headers whose `setSpec` list does not contain
the configured (truthy) set filter — recording no error for them — and for
every surviving header creates exactly one `HarvestObject` whose `guid` is the
header's identifier, returning the created ids in listing order. -/
theorem gather_one_object_per_surviving_header (st0 : HarvState) (cfg : ConfigJson)
    (hs : List Header) :
    (gather_stage st0 (some cfg) ⟨true, hs.map .header⟩).createdObjects.map HObj.guid =
      ((hs.filter fun h => !shouldSkip cfg.filter h).map Header.identifier) ∧
    (gather_stage st0 (some cfg) ⟨true, hs.map .header⟩).returnedIds =
      some ((gather_stage st0 (some cfg) ⟨true, hs.map .header⟩).createdObjects.map HObj.id) ∧
    (gather_stage st0 (some cfg) ⟨true, hs.map .header⟩).gatherErrors = 0 ∧
    (gather_stage st0 (some cfg) ⟨true, hs.map .header⟩).objectErrors = 0 := by
  have hst : (_set_config st0 (some cfg)).set_filter = some cfg.filter := rfl
  obtain ⟨h1, h2⟩ := gatherLoop_map_header (_set_config st0 (some cfg)) cfg.filter hst hs 0
  simp only [gather_stage, _set_config] at h1 h2 ⊢
  simp [h1, h2]

/-- C8: Any error during `gather_stage` — a failing `identify()` or an
exception raised mid-way through the identifier listing — records exactly one
job-level gather error (and no object-level error) and makes the stage return
`None` instead of the id list; the `HarvestObject`s already created before a
mid-stream error are preserved. -/
theorem gather_error_is_job_level (st0 : HarvState) (cfg : ConfigJson)
    (hs : List Header) (m : String) (rest : List StreamItem) :
    ((gather_stage st0 (some cfg) ⟨true, hs.map .header ++ .failure m :: rest⟩).returnedIds
        = none ∧
      (gather_stage st0 (some cfg) ⟨true, hs.map .header ++ .failure m :: rest⟩).gatherErrors
        = 1 ∧
      (gather_stage st0 (some cfg) ⟨true, hs.map .header ++ .failure m :: rest⟩).objectErrors
        = 0 ∧
      (gather_stage st0 (some cfg)
            ⟨true, hs.map .header ++ .failure m :: rest⟩).createdObjects.map HObj.guid =
        ((hs.filter fun h => !shouldSkip cfg.filter h).map Header.identifier)) ∧
    ∀ items : List StreamItem,
      (gather_stage st0 (some cfg) ⟨false, items⟩).returnedIds = none ∧
      (gather_stage st0 (some cfg) ⟨false, items⟩).gatherErrors = 1 ∧
      (gather_stage st0 (some cfg) ⟨false, items⟩).objectErrors = 0 ∧
      (gather_stage st0 (some cfg) ⟨false, items⟩).createdObjects = [] := by
  constructor
  · have hst : (_set_config st0 (some cfg)).set_filter = some cfg.filter := rfl
    have hfail := gatherLoop_failure (_set_config st0 (some cfg)) m rest hs 0
    obtain ⟨-, h2⟩ := gatherLoop_map_header (_set_config st0 (some cfg)) cfg.filter hst hs 0
    simp only [gather_stage, _set_config] at hfail h2 ⊢
    simp [hfail, h2]
  · intro items
    simp [gather_stage, _set_config]

/-- C7 counterexample: on a fresh harvester a malformed (non-JSON)
configuration string does not fall back to defaults — `md_format` stays
unassigned instead of `"oai_dc"` — and a subsequent gather and fetch both
fail even though the endpoint answers correctly. -/
theorem config_malformed_counterexample :
    (_set_config freshHarvState none).md_format = none ∧
    (_set_config freshHarvState none).md_format ≠ some "oai_dc" ∧
    (_set_config freshHarvState none).force_http_get = none ∧
    (gather_stage freshHarvState none
        ⟨true, [.header ⟨"oai:1", ["s"], none⟩]⟩).returnedIds = none ∧
    (gather_stage freshHarvState none
        ⟨true, [.header ⟨"oai:1", ["s"], none⟩]⟩).gatherErrors = 1 ∧
    (fetch_stage freshHarvState none "oai:1"
        (fun _ _ => .ok ⟨⟨"oai:1", ["s"], none⟩, []⟩)).success = false := by
  refine ⟨rfl, by decide, rfl, rfl, rfl, rfl⟩

/-- C7 (amended): for a well-formed JSON-object configuration the optional
keys fall back to the defaults (`metadata_prefix` to `"oai_dc"`,
`force_http_get` to `False`, credentials/set/filter to `None`), and a stage
run under such a configuration does not fail for configuration reasons; a
malformed (non-JSON) configuration string, however, is silently ignored by
`_set_config` (the `ValueError` is swallowed), leaving every attribute as it
was — so on a fresh harvester no defaults are installed and a subsequent
gather fails with a job-level error. -/
theorem config_defaults_and_malformed (st : HarvState) (cfg : ConfigJson) :
    _set_config st none = st ∧
    (_set_config freshHarvState (some {}) =
      { credentials := some none, user := some "harvest", set_spec := some none,
        set_filter := some none, md_format := some "oai_dc",
        force_http_get := some false }) ∧
    (_set_config st (some cfg)).md_format = some (cfg.metadata_format.getD "oai_dc") ∧
    (_set_config st (some cfg)).force_http_get = some (cfg.force_http_get.getD false) ∧
    (∀ ep : GatherEndpoint,
      (gather_stage freshHarvState none ep).returnedIds = none ∧
      (gather_stage freshHarvState none ep).gatherErrors = 1) := by
  refine ⟨rfl, rfl, rfl, rfl, fun ep => ⟨rfl, rfl⟩⟩

/-- C2: If any of the directly indexed extraction keys `creator`, `rights`,
`date`, `relation`, `identifier` is entirely absent from an object's content
map, `import_stage` for that object records exactly one object-level error
and returns `False` — for every outcome of the external catalog calls — and
the failure is confined to that object: importing the whole job is the
independent per-object map, so the surrounding objects' outcomes are
untouched. -/
theorem import_missing_required_key_fails (g : String) (content : ContentMap)
    (oo : Except String (Option String)) (cok : Bool)
    (hmiss : lookupKey content "creator" = none ∨ lookupKey content "rights" = none ∨
             lookupKey content "date" = none ∨ lookupKey content "relation" = none ∨
             lookupKey content "identifier" = none) :
    (import_stage (some ⟨g, some content⟩) oo cok).success = false ∧
    (import_stage (some ⟨g, some content⟩) oo cok).objectErrors = 1 ∧
    ∀ pre post : List (Option HarvestObjectRec),
      import_all (pre ++ some ⟨g, some content⟩ :: post) oo cok =
        import_all pre oo cok ++
          import_stage (some ⟨g, some content⟩) oo cok :: import_all post oo cok := by
  have hfail : ∀ pd, import_build g content oo ≠ .ok pd := by
    intro pd hok
    obtain ⟨k1, k2, k3, -, k4, k5⟩ := import_build_ok_keys hok
    rcases hmiss with h | h | h | h | h
    · simp [h] at k1
    · simp [h] at k2
    · simp [h] at k4
    · simp [h] at k3
    · simp [h] at k5
  refine ⟨?_, ?_, ?_⟩
  · cases himp : import_build g content oo with
    | error e => simp [import_stage, himp]
    | ok pd => exact absurd himp (hfail pd)
  · cases himp : import_build g content oo with
    | error e => simp [import_stage, himp]
    | ok pd => exact absurd himp (hfail pd)
  · intro pre post
    simp [import_all]

/-- C6 (implicit): `import_stage` reads `content['metadata_modified']`
unconditionally, outside the skip-on-missing mapping loop.  So whenever the
header datestamp fails to parse during `fetch_stage` — which succeeds and
merely omits the derived key — the subsequent `import_stage` of that object
records an object-level error and returns `False`, for every outcome of the
external catalog calls. -/
theorem import_requires_metadata_modified :
    (∀ (st0 : HarvState) (cfg : ConfigJson) (g : String) (record : OaiRecord),
      record.header.datestampIso = none →
      lookupKey record.metadataMap "metadata_modified" = none →
      (fetch_stage st0 (some cfg) g (fun _ _ => .ok record)).success = true ∧
      ∃ d, (fetch_stage st0 (some cfg) g (fun _ _ => .ok record)).persisted = some d ∧
        lookupKey d "metadata_modified" = none) ∧
    (∀ (g : String) (content : ContentMap) (oo : Except String (Option String))
        (cok : Bool),
      lookupKey content "metadata_modified" = none →
      (import_stage (some ⟨g, some content⟩) oo cok).success = false ∧
      (import_stage (some ⟨g, some content⟩) oo cok).objectErrors = 1) := by
  constructor
  · intro st0 cfg g record hds hno
    refine ⟨rfl, dictSet record.metadataMap "set_spec" (.list record.header.setSpec), ?_, ?_⟩
    · simp [fetch_stage, _set_config, hds]
    · rw [lookupKey_dictSet_ne record.metadataMap _ _ _ (by decide)]
      exact hno
  · intro g content oo cok hno
    have hfail : ∀ pd, import_build g content oo ≠ .ok pd := by
      intro pd hok
      obtain ⟨-, -, -, k, -, -⟩ := import_build_ok_keys hok
      simp [hno] at k
    cases himp : import_build g content oo with
    | error e => simp [import_stage, himp]
    | ok pd => exact absurd himp (hfail pd)

/-- C2 witness: an object whose content lacks the `creator` key fails import
with one object-level error, even though the external catalog calls
succeed. -/
theorem import_missing_required_key_fails_witness :
    (import_stage (some ⟨"oai:1", some [("rights", Value.list ["CC"])]⟩)
        (.ok (some "org")) true).success = false ∧
    (import_stage (some ⟨"oai:1", some [("rights", Value.list ["CC"])]⟩)
        (.ok (some "org")) true).objectErrors = 1 :=
  ⟨(import_missing_required_key_fails "oai:1" [("rights", Value.list ["CC"])]
      (.ok (some "org")) true (Or.inl (by decide))).1,
   (import_missing_required_key_fails "oai:1" [("rights", Value.list ["CC"])]
      (.ok (some "org")) true (Or.inl (by decide))).2.1⟩

/-- C6 witness: a record whose datestamp parse failed fetches successfully,
and importing content without `metadata_modified` fails. -/
theorem import_requires_metadata_modified_witness :
    (fetch_stage freshHarvState (some {}) "oai:2"
      (fun _ _ => .ok ⟨⟨"oai:2", [], none⟩, [("creator", .list ["A"])]⟩)).success
        = true ∧
    (import_stage (some ⟨"oai:2", some [("creator", Value.list ["A"])]⟩)
        (.ok none) true).success = false :=
  ⟨(import_requires_metadata_modified.1 freshHarvState {} "oai:2"
      ⟨⟨"oai:2", [], none⟩, [("creator", .list ["A"])]⟩ rfl (by decide)).1,
   (import_requires_metadata_modified.2 "oai:2" [("creator", Value.list ["A"])]
      (.ok none) true (by decide)).1⟩

/-- C3: The field-mapping step of `import_stage` assigns exactly the targets
of `_get_mapping` — `title←title`, `notes←description`, `maintainer←publisher`,
`maintainer_email←maintainer_email`, `url←relation` — each set to the FIRST
element of the corresponding content value sequence; when the source key is
absent or its value sequence is empty, the target is left unset (no error, the
loop continues). -/
theorem import_mapping_fields (content : ContentMap) :
    (∀ tf sf, (tf, sf) ∈ _get_mapping →
      (∀ x xs, lookupKey content sf = some (.list (x :: xs)) →
        assocLookup (mappingLoop content _get_mapping) tf = some x) ∧
      (lookupKey content sf = none →
        assocLookup (mappingLoop content _get_mapping) tf = none) ∧
      (lookupKey content sf = some (.list []) →
        assocLookup (mappingLoop content _get_mapping) tf = none)) ∧
    (∀ p ∈ mappingLoop content _get_mapping,
      p.1 ∈ ["title", "notes", "maintainer", "maintainer_email", "url"]) := by
  constructor
  · intro tf sf hmem
    have hl := mappingLoop_lookup content _get_mapping (by decide) tf sf hmem
    refine ⟨?_, ?_, ?_⟩
    · intro x xs hx
      rw [hl, hx]
      rfl
    · intro hx
      rw [hl, hx]
      rfl
    · intro hx
      rw [hl, hx]
      rfl
  · intro p hp
    simpa [_get_mapping] using mappingLoop_keys content _get_mapping p hp

/-- C3 witness: on a content map holding only `title = ["T"]`, the loop sets
`title` to `"T"` and leaves `notes` (source key `description`, absent)
unset. -/
theorem import_mapping_fields_witness :
    assocLookup (mappingLoop [("title", Value.list ["T"])] _get_mapping) "title" =
      some "T" ∧
    assocLookup (mappingLoop [("title", Value.list ["T"])] _get_mapping) "notes" =
      none :=
  ⟨((import_mapping_fields [("title", Value.list ["T"])]).1 "title" "title"
      (by decide)).1 "T" [] (by decide),
   ((import_mapping_fields [("title", Value.list ["T"])]).1 "notes" "description"
      (by decide)).2.1 (by decide)⟩

/-- C4 counterexample: a key ending in `date` (here `releasedate`) that is
neither a mapping source key nor `type`/`subject`, holding an unparsable
value, produces NO extras entry — the claim's "every other key produces one
extras entry `{key, value}`" fails at this input. -/
theorem extras_drops_unparsable_date_counterexample :
    (_extract_tags_and_extras [("releasedate", .list ["not-a-date"])]).2 = [] ∧
    (_extract_tags_and_extras [("releasedate", .list ["not-a-date"])]).2 ≠
      [("releasedate", some "not-a-date")] := by decide

/-- C4 (amended): `_extract_tags_and_extras` turns the values of `type` and
`subject` into tags (flattening a list value, splitting a scalar on `;`),
each tag truncated to 100 characters and name-sanitized, and neither key
produces an extras entry; every other key not among the mapping-table source
keys produces one extras entry `{key, value}` — value the first element when
the value is a list with a non-empty first element, null when the value is
empty — EXCEPT that a key ending in `date` whose value fails to parse as a
date is dropped (the date rule of the neighbouring claim).  On content with
type `"Dataset"` and subject `"Climate;Ocean"` the tags are
`dataset, climate, ocean`. -/
theorem tags_and_extras_extraction (content : ContentMap) :
    (_extract_tags_and_extras content).1 =
      ((content.filter fun kv => decide (kv.1 = "type" ∨ kv.1 = "subject")).flatMap
        fun kv => tagsOf kv.2).map (fun t => munge_tag (strTake t 100)) ∧
    (_extract_tags_and_extras content).2 =
      ((content.filter fun kv =>
          !mappingSourceKeys.contains kv.1 &&
            !decide (kv.1 = "type" ∨ kv.1 = "subject")).filterMap
        fun kv => extrasEntry kv.1 kv.2) ∧
    (∀ e ∈ (_extract_tags_and_extras content).2,
      ¬(e.1 = "type" ∨ e.1 = "subject") ∧ e.1 ∉ mappingSourceKeys) ∧
    (∀ k : String, extrasEntry k (.list []) = some (k, none)) ∧
    (∀ (k x : String) (xs : List String), strEndsWith k "date" = false → x ≠ "" →
      extrasEntry k (.list (x :: xs)) = some (k, some x)) ∧
    _extract_tags_and_extras [("type", .str "Dataset"), ("subject", .str "Climate;Ocean")] =
      (["dataset", "climate", "ocean"], []) := by
  obtain ⟨h1, h2⟩ := tagsExtrasLoop_spec content
  refine ⟨?_, ?_, ?_, fun k => rfl, ?_, by decide⟩
  · simp only [_extract_tags_and_extras, h1, tagsFilter_simplify]
  · simpa [_extract_tags_and_extras] using h2
  · intro e he
    have he2 := h2 ▸ (by simpa [_extract_tags_and_extras] using he :
      e ∈ (tagsExtrasLoop content).2)
    obtain ⟨kv, hin, hent⟩ := List.mem_filterMap.mp he2
    obtain ⟨hinc, hpred⟩ := List.mem_filter.mp hin
    obtain ⟨hp1, hp2, hp3⟩ : kv.1 ∉ mappingSourceKeys ∧ kv.1 ≠ "type" ∧ kv.1 ≠ "subject" := by
      simpa [not_or] using hpred
    rw [extrasEntry_fst hent]
    constructor
    · rintro (h | h)
      · exact hp2 h
      · exact hp3 h
    · exact hp1
  · intro k x xs hk hx
    simp [extrasEntry, extrasValue, hx, hk]

/-- C4 witness: a generic extras key (`format`) with a non-empty first list
element gets that element as its value, and with an empty list gets null. -/
theorem tags_and_extras_extraction_witness :
    extrasEntry "format" (.list ["PDF", "HTML"]) = some ("format", some "PDF") ∧
    extrasEntry "format" (.list []) = some ("format", none) :=
  ⟨(tags_and_extras_extraction []).2.2.2.2.1 "format" "PDF" ["HTML"] (by decide)
      (by decide),
   (tags_and_extras_extraction []).2.2.2.1 "format"⟩

/-- C5: For a key ending in `date` whose value survives the truthiness
rewrites: when the value parses as a date, the extras hold the
timezone-stripped naive ISO-8601 string under that key; when it does not
parse, the key is dropped from extras entirely — no entry with the raw text
and no error. -/
theorem extras_date_normalization (content : ContentMap) (k : String) (v : Value)
    (s : String) (hk : strEndsWith k "date" = true)
    (hnodup : (content.map Prod.fst).Nodup) (hmem : (k, v) ∈ content)
    (hv : extrasValue v = some s) :
    (∀ iso, parseDateNaiveIso s = some iso →
      (k, some iso) ∈ (_extract_tags_and_extras content).2) ∧
    (parseDateNaiveIso s = none →
      ∀ w, (k, w) ∉ (_extract_tags_and_extras content).2) := by
  obtain ⟨-, h2⟩ := tagsExtrasLoop_spec content
  obtain ⟨hnotmap, hnotts⟩ := endsDate_not_special k hk
  have hext : (_extract_tags_and_extras content).2 =
      ((content.filter fun kv =>
          !mappingSourceKeys.contains kv.1 &&
            !decide (kv.1 = "type" ∨ kv.1 = "subject")).filterMap
        fun kv => extrasEntry kv.1 kv.2) := by
    simpa [_extract_tags_and_extras] using h2
  constructor
  · intro iso hiso
    rw [hext]
    refine List.mem_filterMap.mpr ⟨(k, v), List.mem_filter.mpr ⟨hmem, ?_⟩, ?_⟩
    · simp [hnotmap, hnotts]
    · simp [extrasEntry, hv, hk, hiso]
  · intro hnone w hwmem
    rw [hext] at hwmem
    obtain ⟨⟨k', v'⟩, hin, hent⟩ := List.mem_filterMap.mp hwmem
    have hkk : k = k' := extrasEntry_fst hent
    subst hkk
    have hvv : v' = v :=
      keys_nodup_unique hnodup (List.mem_of_mem_filter hin) hmem
    subst hvv
    simp [extrasEntry, hv, hk, hnone] at hent

/-- C5 witness: `coverage_date = "2020-01-01T00:00:00+02:00"` is normalized
to the naive `"2020-01-01T00:00:00"`, and an unparsable `coverage_date`
value leaves no extras entry at all. -/
theorem extras_date_normalization_witness :
    ("coverage_date", some "2020-01-01T00:00:00") ∈
      (_extract_tags_and_extras
        [("coverage_date", Value.list ["2020-01-01T00:00:00+02:00"])]).2 ∧
    ∀ w, ("coverage_date", w) ∉
      (_extract_tags_and_extras [("coverage_date", Value.list ["not-a-date"])]).2 :=
  ⟨(extras_date_normalization
      [("coverage_date", Value.list ["2020-01-01T00:00:00+02:00"])]
      "coverage_date" (Value.list ["2020-01-01T00:00:00+02:00"])
      "2020-01-01T00:00:00+02:00" (by decide) (by decide) (by decide) (by decide)).1
      "2020-01-01T00:00:00" (by decide),
   fun w => (extras_date_normalization
      [("coverage_date", Value.list ["not-a-date"])]
      "coverage_date" (Value.list ["not-a-date"]) "not-a-date"
      (by decide) (by decide) (by decide) (by decide)).2 (by decide) w⟩

/-- C9: When `getRecord` succeeds but the header datestamp fails to parse,
`fetch_stage` still succeeds: no object-level error is recorded, and the
persisted content is the metadata map with `set_spec` injected and the
`metadata_modified` key simply omitted. -/
theorem fetch_datestamp_failure_nonfatal (st0 : HarvState) (cfg : ConfigJson)
    (g : String) (record : OaiRecord)
    (hds : record.header.datestampIso = none) :
    (fetch_stage st0 (some cfg) g (fun _ _ => .ok record)).success = true ∧
    (fetch_stage st0 (some cfg) g (fun _ _ => .ok record)).objectErrors = 0 ∧
    (fetch_stage st0 (some cfg) g (fun _ _ => .ok record)).persisted =
      some (dictSet record.metadataMap "set_spec" (.list record.header.setSpec)) := by
  refine ⟨rfl, rfl, ?_⟩
  simp [fetch_stage, _set_config, hds]

/-- C9 witness: a concrete record whose datestamp parse failed fetches
successfully with `metadata_modified` omitted. -/
theorem fetch_datestamp_failure_nonfatal_witness :
    (fetch_stage freshHarvState (some {}) "oai:1"
      (fun _ _ => .ok ⟨⟨"oai:1", ["s"], none⟩, [("title", .list ["T"])]⟩)).success
        = true ∧
    (fetch_stage freshHarvState (some {}) "oai:1"
      (fun _ _ => .ok ⟨⟨"oai:1", ["s"], none⟩, [("title", .list ["T"])]⟩)).objectErrors
        = 0 ∧
    (fetch_stage freshHarvState (some {}) "oai:1"
      (fun _ _ => .ok ⟨⟨"oai:1", ["s"], none⟩, [("title", .list ["T"])]⟩)).persisted
        = some [("title", .list ["T"]), ("set_spec", .list ["s"])] :=
  fetch_datestamp_failure_nonfatal freshHarvState {} "oai:1"
    ⟨⟨"oai:1", ["s"], none⟩, [("title", .list ["T"])]⟩ rfl

/-- C10: Fetch is deterministic: two `fetch_stage` invocations against the
same resolved configuration and an unchanged remote record produce the same
outcome, and in particular byte-identical serialized content. -/
theorem fetch_idempotent (st0 st0' : HarvState) (cfg : Option ConfigJson)
    (g : String) (ep ep' : String → String → Except String OaiRecord)
    (hrec : ∀ mdf, ep g mdf = ep' g mdf)
    (hst : _set_config st0 cfg = _set_config st0' cfg) :
    fetch_stage st0 cfg g ep = fetch_stage st0' cfg g ep' ∧
    (fetch_stage st0 cfg g ep).persisted.map json_dumps =
      (fetch_stage st0' cfg g ep').persisted.map json_dumps := by
  have key : fetch_stage st0 cfg g ep = fetch_stage st0' cfg g ep' := by
    simp only [fetch_stage, hst]
    generalize _set_config st0' cfg = st'
    obtain ⟨cr, u, ss, sf, mf, fg⟩ := st'
    cases cr <;> cases fg <;> cases mf <;> simp [hrec]
  exact ⟨key, by rw [key]⟩

/-- C10 witness: two invocations from different prior attribute states that
resolve to the same configuration, with the same remote record, persist the
same bytes. -/
theorem fetch_idempotent_witness :
    (fetch_stage freshHarvState (some {}) "oai:1"
        (fun _ _ => .ok ⟨⟨"oai:1", ["s"], none⟩, [("title", .list ["T"])]⟩)).persisted.map
          json_dumps =
      (fetch_stage { credentials := some (some ("u", "p")), user := some "x" }
        (some {}) "oai:1"
        (fun _ _ => .ok ⟨⟨"oai:1", ["s"], none⟩, [("title", .list ["T"])]⟩)).persisted.map
          json_dumps :=
  (fetch_idempotent freshHarvState
    { credentials := some (some ("u", "p")), user := some "x" } (some {}) "oai:1"
    (fun _ _ => .ok ⟨⟨"oai:1", ["s"], none⟩, [("title", .list ["T"])]⟩)
    (fun _ _ => .ok ⟨⟨"oai:1", ["s"], none⟩, [("title", .list ["T"])]⟩)
    (fun _ => rfl) rfl).2

end Oaipmh

namespace OaipmhTests

open Oaipmh

example : splitSemis "Climate;Ocean" = ["Climate", "Ocean"] := by decide

example : munge_tag "Dataset" = "dataset" := by decide

example : parseDateNaiveIso "2020-01-01T00:00:00+02:00" = some "2020-01-01T00:00:00" := by decide

example : parseDateNaiveIso "not-a-date" = none := by decide

example : parseDateNaiveIso "2021-05-01" = some "2021-05-01T00:00:00" := by decide

example : strEndsWith "coverage_date" "date" = true := by decide

example : strEndsWith "title" "date" = false := by decide

example : pyJoin ", " (Value.list ["A", "B"]) = "A, B" := by decide

example :
    gather_stage freshHarvState (some {})
      ⟨true, [.header ⟨"oai:1", ["s"], none⟩, .header ⟨"oai:2", ["t"], none⟩]⟩ =
    { returnedIds := some [0, 1],
      createdObjects := [⟨0, "oai:1"⟩, ⟨1, "oai:2"⟩],
      gatherErrors := 0, objectErrors := 0 } := by decide

example :
    gather_stage freshHarvState (some { filter := some "F" })
      ⟨true, [.header ⟨"oai:1", ["s"], none⟩, .header ⟨"oai:2", ["F"], none⟩]⟩ =
    { returnedIds := some [0],
      createdObjects := [⟨0, "oai:2"⟩],
      gatherErrors := 0, objectErrors := 0 } := by decide

example :
    gather_stage freshHarvState none ⟨true, []⟩ =
    { returnedIds := none, createdObjects := [],
      gatherErrors := 1, objectErrors := 0 } := by decide

example :
    gather_stage freshHarvState (some {})
      ⟨true, [.header ⟨"oai:1", [], none⟩, .failure "boom", .header ⟨"oai:2", [], none⟩]⟩ =
    { returnedIds := none, createdObjects := [⟨0, "oai:1"⟩],
      gatherErrors := 1, objectErrors := 0 } := by decide

example :
    import_build "oai:x:1" sampleContent (.ok (some "org1")) =
    .ok { id := "oaix1", name := "oaix1",
          title := some "T", notes := some "D",
          maintainer := none, maintainer_email := none,
          url := some "http://x/1",
          author := "A, B", owner_org := some "org1",
          license_id := "CC-BY", license := "CC-BY",
          resources := [("Figshare", "http://x/1")],
          tags := [],
          extras := [("creator", some "A"), ("rights", some "CC-BY"),
                     ("identifier", some "http://x/1"),
                     ("date", some "2021-05-01T00:00:00"),
                     ("metadata_modified", some "2021-06-01T00:00:00")],
          modified := .str "2021-06-01T00:00:00", issued := "2021-05-01",
          source_identifier := "http://x/1", identifier := "http://x/1",
          references := "http://x/1", groups := [] } := by decide

example :
    _extract_tags_and_extras
      [("type", .str "Dataset"), ("subject", .str "Climate;Ocean")] =
    (["dataset", "climate", "ocean"], []) := by decide

example :
    _extract_tags_and_extras
      [("coverage_date", .list ["2020-01-01T00:00:00+02:00"])] =
    ([], [("coverage_date", some "2020-01-01T00:00:00")]) := by decide

example :
    _extract_tags_and_extras [("coverage_date", .list ["not-a-date"])] =
    ([], []) := by decide

example :
    fetch_stage freshHarvState (some {}) "oai:1"
      (fun _ _ => .ok ⟨⟨"oai:1", ["s"], none⟩, [("title", .list ["T"])]⟩) =
    { success := true, objectErrors := 0,
      persisted := some [("title", .list ["T"]), ("set_spec", .list ["s"])] } := by decide

example :
    fetch_stage freshHarvState (some {}) "oai:1"
      (fun _ _ => .ok ⟨⟨"oai:1", ["s"], some "2021-06-01T00:00:00"⟩, [("title", .list ["T"])]⟩) =
    { success := true, objectErrors := 0,
      persisted := some [("title", .list ["T"]), ("set_spec", .list ["s"]),
                         ("metadata_modified", .str "2021-06-01T00:00:00")] } := by decide

end OaipmhTests
